import Mathlib

/-!
Verification of the cloud-report pipeline (metric normalization, billing
aggregation, report assembly) against its specification.  Definitions are
shallow embeddings of the Python source: floats are modelled as rationals,
CloudWatch datapoints as records, provider responses as lists.
-/

namespace NxApp

/-- A raw CloudWatch datapoint: a timestamp together with the optional
`Average`/`Minimum`/`Maximum` statistics, as handled by
`convert_bytes_to_gb` and `process_metric_data` in `aws_utils.py`. -/
structure Datapoint where
  timestamp : Nat
  average : Option ℚ
  minimum : Option ℚ
  maximum : Option ℚ
  deriving DecidableEq

/-- The normalized series returned by `process_metric_data`
(`aws_utils.py`): parallel timestamp/value sequences plus the derived
average/min/max statistics. -/
structure MetricSeries where
  timestamps : List Nat
  values : List ℚ
  average : ℚ
  min : ℚ
  max : ℚ
  deriving DecidableEq

/-- Comparison used by `sorted(..., key=lambda x: x['Timestamp'])`. -/
def tsLe (a b : Datapoint) : Prop := a.timestamp ≤ b.timestamp

instance : DecidableRel tsLe := fun a b =>
  inferInstanceAs (Decidable (a.timestamp ≤ b.timestamp))

instance : IsTotal Datapoint tsLe := ⟨fun a b => Nat.le_total a.timestamp b.timestamp⟩

instance : IsTrans Datapoint tsLe := ⟨fun _ _ _ h h' => Nat.le_trans h h'⟩

/-- `sorted(metric_data['Datapoints'], key=lambda x: x['Timestamp'])`:
Python's `sorted` is a stable sort by the timestamp key. -/
def sortedDatapoints (dps : List Datapoint) : List Datapoint :=
  List.insertionSort tsLe dps

/-- `point.get('Average', 0)` from `process_metric_data`. -/
def avgOf (p : Datapoint) : ℚ := p.average.getD 0

/-- The `values` list extracted from the sorted datapoints. -/
def seriesValues (dps : List Datapoint) : List ℚ :=
  (sortedDatapoints dps).map avgOf

/-- Python `min(values)` on a nonempty list (0 on the empty list, which the
caller never reaches). -/
def listMin : List ℚ → ℚ
  | [] => 0
  | v :: vs => vs.foldl min v

/-- Python `max(values)` on a nonempty list (0 on the empty list, which the
caller never reaches). -/
def listMax : List ℚ → ℚ
  | [] => 0
  | v :: vs => vs.foldl max v

/-- `process_metric_data` (`aws_utils.py` lines 316-342): empty input yields
an all-empty, all-zero series; otherwise datapoints are sorted by timestamp,
values are the `Average` statistics (default 0), and average/min/max are
recomputed from the values. -/
def processMetricData (dps : List Datapoint) : MetricSeries :=
  if dps = [] then ⟨[], [], 0, 0, 0⟩
  else
    ⟨(sortedDatapoints dps).map Datapoint.timestamp,
     seriesValues dps,
     (seriesValues dps).sum / ((seriesValues dps).length : ℚ),
     listMin (seriesValues dps),
     listMax (seriesValues dps)⟩

/-- `1024 * 1024 * 1024`, the byte→gigabyte divisor of
`convert_bytes_to_gb`. -/
def gbFactor : ℚ := 1024 * 1024 * 1024

/-- The per-datapoint action of `convert_bytes_to_gb`: each of the present
`Average`/`Minimum`/`Maximum` statistics is divided by `1024^3`. -/
def convertPointToGb (p : Datapoint) : Datapoint :=
  ⟨p.timestamp, p.average.map (· / gbFactor), p.minimum.map (· / gbFactor),
   p.maximum.map (· / gbFactor)⟩

/-- `convert_bytes_to_gb` (`aws_utils.py` lines 303-314), applied to the
datapoint list (the Python code mutates each point in place; on an empty
list it does nothing). -/
def convertBytesToGb (dps : List Datapoint) : List Datapoint :=
  dps.map convertPointToGb

lemma gbFactor_pos : 0 < gbFactor := by norm_num [gbFactor]

/-- Sorting by timestamp commutes with the byte→GB conversion, because the
conversion leaves timestamps unchanged. -/
lemma sortedDatapoints_convert (dps : List Datapoint) :
    sortedDatapoints (convertBytesToGb dps)
      = (sortedDatapoints dps).map convertPointToGb := by
  unfold sortedDatapoints convertBytesToGb
  exact (List.map_insertionSort tsLe tsLe convertPointToGb dps
    (fun a _ b _ => Iff.rfl)).symm

lemma avgOf_convert (p : Datapoint) :
    avgOf (convertPointToGb p) = avgOf p / gbFactor := by
  cases h : p.average <;> simp [avgOf, convertPointToGb, h]

lemma seriesValues_convert (dps : List Datapoint) :
    seriesValues (convertBytesToGb dps) = (seriesValues dps).map (· / gbFactor) := by
  unfold seriesValues
  rw [sortedDatapoints_convert, List.map_map, List.map_map]
  exact List.map_congr_left (fun p _ => avgOf_convert p)

lemma foldl_min_div (c : ℚ) (hc : 0 ≤ c) (vs : List ℚ) :
    ∀ a : ℚ, (vs.map (· / c)).foldl min (a / c) = vs.foldl min a / c := by
  induction vs with
  | nil => intro a; rfl
  | cons v vs ih =>
    intro a
    simp only [List.map, List.foldl]
    rw [min_div_div_right hc, ih]

lemma foldl_max_div (c : ℚ) (hc : 0 ≤ c) (vs : List ℚ) :
    ∀ a : ℚ, (vs.map (· / c)).foldl max (a / c) = vs.foldl max a / c := by
  induction vs with
  | nil => intro a; rfl
  | cons v vs ih =>
    intro a
    simp only [List.map, List.foldl]
    rw [max_div_div_right hc, ih]

lemma listMin_map_div (c : ℚ) (hc : 0 ≤ c) (l : List ℚ) :
    listMin (l.map (· / c)) = listMin l / c := by
  cases l with
  | nil => simp [listMin]
  | cons v vs => simp only [List.map, listMin]; exact foldl_min_div c hc vs v

lemma listMax_map_div (c : ℚ) (hc : 0 ≤ c) (l : List ℚ) :
    listMax (l.map (· / c)) = listMax l / c := by
  cases l with
  | nil => simp [listMax]
  | cons v vs => simp only [List.map, listMax]; exact foldl_max_div c hc vs v

lemma sum_map_div (c : ℚ) (l : List ℚ) :
    (l.map (· / c)).sum = l.sum / c := by
  induction l with
  | nil => simp
  | cons v vs ih => simp [ih, add_div]

/-- C5: every `MetricSeries` produced by `process_metric_data` has equally
long timestamp and value sequences, and its timestamps are in non-decreasing
order, whatever the order of the raw datapoints. -/
theorem metric_series_aligned_and_sorted (dps : List Datapoint) :
    (processMetricData dps).timestamps.length = (processMetricData dps).values.length ∧
    List.Sorted (· ≤ ·) (processMetricData dps).timestamps := by
  unfold processMetricData
  by_cases h : dps = []
  · simp [h]
  · rw [if_neg h]
    refine ⟨by simp [seriesValues], ?_⟩
    exact (List.sorted_insertionSort tsLe dps).map Datapoint.timestamp
      (fun a b hab => hab)

/-- C2: for managed-database memory/disk metrics the pipeline first divides
every raw byte value by `1024^3` (`convert_bytes_to_gb`) and only then
computes the statistics (`process_metric_data`), so every statistic of the
resulting series is the corresponding byte statistic divided by `1024^3`
(i.e. expressed in gigabytes); in particular a raw `2^30`-byte datapoint
yields the series with single value `1`. -/
theorem rds_stats_converted_to_gb :
    (∀ dps : List Datapoint,
      (processMetricData (convertBytesToGb dps)).values
          = (processMetricData dps).values.map (· / gbFactor) ∧
      (processMetricData (convertBytesToGb dps)).average
          = (processMetricData dps).average / gbFactor ∧
      (processMetricData (convertBytesToGb dps)).min
          = (processMetricData dps).min / gbFactor ∧
      (processMetricData (convertBytesToGb dps)).max
          = (processMetricData dps).max / gbFactor) ∧
    processMetricData (convertBytesToGb [⟨0, some (2 ^ 30), none, none⟩])
      = ⟨[0], [1], 1, 1, 1⟩ := by
  constructor
  · intro dps
    by_cases h : dps = []
    · subst h
      simp [convertBytesToGb, processMetricData]
    · have h' : convertBytesToGb dps ≠ [] := by
        simpa [convertBytesToGb] using h
      unfold processMetricData
      rw [if_neg h, if_neg h']
      refine ⟨seriesValues_convert dps, ?_, ?_, ?_⟩
      · simp only [seriesValues_convert, sum_map_div, List.length_map]
        rw [div_right_comm]
      · rw [seriesValues_convert, listMin_map_div _ gbFactor_pos.le]
      · rw [seriesValues_convert, listMax_map_div _ gbFactor_pos.le]
  · have hne : convertBytesToGb [(⟨0, some (2 ^ 30), none, none⟩ : Datapoint)] ≠ [] := by
      simp [convertBytesToGb]
    unfold processMetricData
    rw [if_neg hne]
    have hval : (2 ^ 30 : ℚ) / gbFactor = 1 := by norm_num [gbFactor]
    simp [convertBytesToGb, convertPointToGb, seriesValues, sortedDatapoints,
      avgOf, List.insertionSort, listMin, listMax, hval]

/-- One Cost Explorer group: a service name with its `UnblendedCost` amount,
as read off `group['Keys'][0]` and `float(group['Metrics']['UnblendedCost']['Amount'])`. -/
structure ServiceCost where
  service : String
  amount : ℚ
  deriving DecidableEq

/-- Zero-padded two-digit month formatting, Python's `f"{month:02d}"`. -/
def pad2 (n : Nat) : String :=
  if n < 10 then "0" ++ toString n else toString n

/-- `start_date = f'{year}-{month:02d}-01'` from `get_client_billing_data`. -/
def billingStartDate (month year : Nat) : String :=
  toString year ++ "-" ++ pad2 month ++ "-01"

/-- The end date, rolling the year forward at December. -/
def billingEndDate (month year : Nat) : String :=
  if month = 12 then toString (year + 1) ++ "-01-01"
  else toString year ++ "-" ++ pad2 (month + 1) ++ "-01"

/-- `calendar.month_name[month]` for the valid months 1..12. -/
def monthName : Nat → String
  | 1 => "January"
  | 2 => "February"
  | 3 => "March"
  | 4 => "April"
  | 5 => "May"
  | 6 => "June"
  | 7 => "July"
  | 8 => "August"
  | 9 => "September"
  | 10 => "October"
  | 11 => "November"
  | 12 => "December"
  | _ => ""

/-- The dict returned by `get_client_billing_data` (`ssm_utils.py`
lines 204-229). -/
structure CostBreakdown where
  services : List ServiceCost
  total_cost : ℚ
  period : String
  billing_period : String
  start_date : String
  end_date : String
  deriving DecidableEq

/-- Ordering used by `services.sort(key=lambda x: x['amount'], reverse=True)`:
descending by amount.  Python's sort is stable, matching a stable insertion
sort under this relation: at equal amounts the earlier element stays first. -/
def amountDesc (a b : ServiceCost) : Prop := b.amount ≤ a.amount

instance : DecidableRel amountDesc := fun a b =>
  inferInstanceAs (Decidable (b.amount ≤ a.amount))

instance : IsTotal ServiceCost amountDesc := ⟨fun a b => le_total b.amount a.amount⟩

instance : IsTrans ServiceCost amountDesc := ⟨fun _ _ _ h h' => le_trans h' h⟩

/-- The aggregation core of `get_client_billing_data`: sum every group's
amount into `total_cost`, keep only the groups with `amount > 0` as
`services`, then sort those descending by amount (stably). -/
def getClientBillingData (month year : Nat) (groups : List ServiceCost) :
    CostBreakdown :=
  { services := List.insertionSort amountDesc (groups.filter (fun g => 0 < g.amount))
    total_cost := (groups.map (·.amount)).sum
    period := billingStartDate month year ++ " to " ++ billingEndDate month year
    billing_period := monthName month ++ " " ++ toString year
    start_date := billingStartDate month year
    end_date := billingEndDate month year }

lemma filter_amount_orderedInsert_of_eq (q : ℚ) (x : ServiceCost)
    (hx : x.amount = q) (l : List ServiceCost) :
    (List.orderedInsert amountDesc x l).filter (fun g => g.amount = q)
      = x :: l.filter (fun g => g.amount = q) := by
  induction l with
  | nil => simp [List.orderedInsert, hx]
  | cons y ys ih =>
    by_cases h : amountDesc x y
    · simp [List.orderedInsert, h, List.filter, hx]
    · have hy : ¬ (y.amount = q) := by
        intro hyq
        exact h (by simp [amountDesc, hx, hyq])
      simp [List.orderedInsert, h, List.filter, hy, ih]

lemma filter_amount_orderedInsert_of_ne (q : ℚ) (x : ServiceCost)
    (hx : ¬ x.amount = q) (l : List ServiceCost) :
    (List.orderedInsert amountDesc x l).filter (fun g => g.amount = q)
      = l.filter (fun g => g.amount = q) := by
  induction l with
  | nil => simp [List.orderedInsert, hx]
  | cons y ys ih =>
    by_cases h : amountDesc x y
    · simp [List.orderedInsert, h, List.filter, hx]
    · simp only [List.orderedInsert, if_neg h, List.filter]
      rw [ih]

/-- Stability of the services sort: for any amount, the equal-amount
elements of the sorted list appear exactly as they do in the unsorted
filtered list. -/
lemma filter_amount_insertionSort (q : ℚ) (l : List ServiceCost) :
    (List.insertionSort amountDesc l).filter (fun g => g.amount = q)
      = l.filter (fun g => g.amount = q) := by
  induction l with
  | nil => rfl
  | cons x xs ih =>
    by_cases hx : x.amount = q
    · rw [List.insertionSort, filter_amount_orderedInsert_of_eq q x hx, ih]
      simp [List.filter, hx]
    · rw [List.insertionSort, filter_amount_orderedInsert_of_ne q x hx, ih]
      simp [List.filter, hx]

/-- C6: the services list of every `CostBreakdown` is sorted descending by
amount, and services of equal amount keep their relative order from the
original provider response (the sort is stable). -/
theorem billing_services_sorted_descending_stable (month year : Nat)
    (groups : List ServiceCost) :
    List.Pairwise (fun a b => b.amount ≤ a.amount)
      (getClientBillingData month year groups).services ∧
    ∀ q : ℚ,
      (getClientBillingData month year groups).services.filter
          (fun g => g.amount = q)
        = (groups.filter (fun g => 0 < g.amount)).filter
            (fun g => g.amount = q) := by
  constructor
  · exact List.sorted_insertionSort amountDesc _
  · intro q
    exact filter_amount_insertionSort q _

lemma sum_filter_pos_of_nonneg (l : List ServiceCost)
    (h : ∀ g ∈ l, 0 ≤ g.amount) :
    ((l.filter (fun g => 0 < g.amount)).map (·.amount)).sum
      = (l.map (·.amount)).sum := by
  induction l with
  | nil => rfl
  | cons x xs ih =>
    have hx : 0 ≤ x.amount := h x (List.mem_cons_self x xs)
    have hxs : ∀ g ∈ xs, 0 ≤ g.amount := fun g hg => h g (List.mem_cons_of_mem x hg)
    by_cases hpos : 0 < x.amount
    · simp [List.filter, hpos, ih hxs]
    · have hzero : x.amount = 0 := le_antisymm (not_lt.mp hpos) hx
      simp [List.filter, hpos, ih hxs, hzero]

/-- C4 (amended): when every group amount is nonnegative, the breakdown's
`total_cost` equals the sum of the listed services' amounts exactly, and
every listed service has a strictly positive amount.  (The unamended claim
fails when a group amount is negative, e.g. a credit; see the
counterexample.) -/
theorem billing_total_matches_services_of_nonneg (month year : Nat)
    (groups : List ServiceCost) (h : ∀ g ∈ groups, 0 ≤ g.amount) :
    (getClientBillingData month year groups).total_cost
      = (((getClientBillingData month year groups).services).map (·.amount)).sum ∧
    ∀ s ∈ (getClientBillingData month year groups).services, 0 < s.amount := by
  constructor
  · have hperm : ((getClientBillingData month year groups).services.map (·.amount)).sum
        = ((groups.filter (fun g => 0 < g.amount)).map (·.amount)).sum := by
      exact ((List.perm_insertionSort amountDesc
        (groups.filter (fun g => 0 < g.amount))).map (·.amount)).sum_eq
    rw [hperm, sum_filter_pos_of_nonneg groups h]
    rfl
  · intro s hs
    have hs' : s ∈ groups.filter (fun g => 0 < g.amount) := by
      exact (List.mem_insertionSort amountDesc).mp hs
    have := List.of_mem_filter hs'
    exact of_decide_eq_true this

/-- C4 counterexample: with a negative-amount group (a credit), the total is
the sum over all groups while the listed services keep only the positive
ones, so the two differ (here by 5, far beyond any floating tolerance). -/
theorem billing_total_counterexample :
    (getClientBillingData 7 2025 [⟨"Credit", -5⟩, ⟨"EC2", 10⟩]).total_cost = 5 ∧
    (((getClientBillingData 7 2025 [⟨"Credit", -5⟩, ⟨"EC2", 10⟩]).services).map
        (·.amount)).sum = 10 ∧
    (getClientBillingData 7 2025 [⟨"Credit", -5⟩, ⟨"EC2", 10⟩]).total_cost ≠
      (((getClientBillingData 7 2025 [⟨"Credit", -5⟩, ⟨"EC2", 10⟩]).services).map
          (·.amount)).sum := by
  refine ⟨?_, ?_, ?_⟩ <;>
    norm_num [getClientBillingData, List.insertionSort, List.orderedInsert,
      List.filter]

/-- Witness for the amended C4 theorem at the spec's month-7/2025 scenario
(amounts 120.50 and 9.64 scaled to rationals) plus a zero-cost group. -/
theorem billing_total_matches_services_witness :
    (∀ g ∈ ([⟨"EC2", 241/2⟩, ⟨"Tax", 241/25⟩, ⟨"Free", 0⟩] : List ServiceCost),
      0 ≤ g.amount) ∧
    (getClientBillingData 7 2025
        [⟨"EC2", 241/2⟩, ⟨"Tax", 241/25⟩, ⟨"Free", 0⟩]).total_cost
      = (((getClientBillingData 7 2025
            [⟨"EC2", 241/2⟩, ⟨"Tax", 241/25⟩, ⟨"Free", 0⟩]).services).map
          (·.amount)).sum := by
  have hnn : ∀ g ∈ ([⟨"EC2", 241/2⟩, ⟨"Tax", 241/25⟩, ⟨"Free", 0⟩] : List ServiceCost),
      0 ≤ g.amount := by
    intro g hg
    simp only [List.mem_cons, List.not_mem_nil, or_false] at hg
    rcases hg with h | h | h <;> subst h <;> norm_num
  exact ⟨hnn, (billing_total_matches_services_of_nonneg 7 2025 _ hnn).1⟩

/-- The three CPU remark texts of `create_utilization_report`
(`report_generator.py` lines 500-507). -/
inductive CpuRemark where
  | high
  | low
  | normal
  deriving DecidableEq

/-- `if avg_val > 85: high elif avg_val < 15: low else: normal`. -/
def cpuRemark (avg : ℚ) : CpuRemark :=
  if avg > 85 then CpuRemark.high
  else if avg < 15 then CpuRemark.low
  else CpuRemark.normal

/-- C3: the CPU remark thresholds are strict: the remark is high exactly
when the average is strictly above 85 and low exactly when it is strictly
below 15; the boundary averages 85 and 15 both give the normal remark. -/
theorem cpu_remark_thresholds_strict :
    (∀ avg : ℚ,
      (cpuRemark avg = CpuRemark.high ↔ 85 < avg) ∧
      (cpuRemark avg = CpuRemark.low ↔ avg < 15)) ∧
    cpuRemark 85 = CpuRemark.normal ∧ cpuRemark 15 = CpuRemark.normal := by
  refine ⟨fun avg => ⟨?_, ?_⟩, by norm_num [cpuRemark], by norm_num [cpuRemark]⟩
  · unfold cpuRemark
    split_ifs with h1 h2
    · simp [h1]
    · simp [h1]
    · simp [h1]
  · unfold cpuRemark
    split_ifs with h1 h2
    · have hge : ¬ avg < 15 := by linarith
      simp [hge]
    · simp [h2]
    · simp [h2]

/-- The weekly truncation guard of `get_instance_metrics`
(`aws_utils.py` lines 354-358): only for multi-day (weekly) reports, a
resource list longer than 5 is cut to its first 5 entries. -/
def limitWeeklyResources (periodDays : Nat) (resources : List String) :
    List String :=
  if 1 < periodDays ∧ 5 < resources.length then resources.take 5 else resources

/-- C7: for a 7-day report a list longer than the cap of 5 is truncated to
exactly its first 5 entries in original order, while a 1-day report never
truncates. -/
theorem weekly_truncation_cap (resources : List String) :
    (5 < resources.length →
      limitWeeklyResources 7 resources = resources.take 5 ∧
      (limitWeeklyResources 7 resources).length = 5) ∧
    limitWeeklyResources 1 resources = resources := by
  constructor
  · intro h
    have hcond : 1 < 7 ∧ 5 < resources.length := ⟨by norm_num, h⟩
    constructor
    · simp [limitWeeklyResources, hcond]
    · simp [limitWeeklyResources, hcond]
      omega
  · simp [limitWeeklyResources]

/-- Witness for C7 at a six-element list: the weekly path keeps exactly the
first five entries, the daily path keeps all six. -/
theorem weekly_truncation_cap_witness :
    5 < (["a", "b", "c", "d", "e", "f"] : List String).length ∧
    limitWeeklyResources 7 ["a", "b", "c", "d", "e", "f"]
      = ["a", "b", "c", "d", "e"] ∧
    limitWeeklyResources 1 ["a", "b", "c", "d", "e", "f"]
      = ["a", "b", "c", "d", "e", "f"] := by
  refine ⟨by decide, ?_, (weekly_truncation_cap ["a", "b", "c", "d", "e", "f"]).2⟩
  rw [((weekly_truncation_cap ["a", "b", "c", "d", "e", "f"]).1 (by decide)).1]
  decide

/-- Python's `resource.split('|')` on the character list of the string:
splitting on the `|` separator, never returning an empty list. -/
def splitParts : List Char → List (List Char)
  | [] => [[]]
  | c :: cs =>
    let rest := splitParts cs
    if c = '|' then [] :: rest
    else
      match rest with
      | [] => [[c]]
      | p :: ps => (c :: p) :: ps

/-- `resource_id.startswith('i-')` on the character list. -/
def startsWithIDash : List Char → Bool
  | 'i' :: '-' :: _ => true
  | _ => false

/-- The resource-reference parsing of `get_instance_metrics`
(`aws_utils.py` lines 361-385): a full `type|id|region` triple parses as
written; a single-part string is a degraded recovery path inferring EC2 for
an `i-` prefixed id and RDS otherwise, with region defaulting to
`us-east-1`; any other shape is skipped (`continue`). -/
def parseResourceRef (resource : String) : Option (String × String × String) :=
  match (splitParts resource.data).map (fun p => String.mk p) with
  | [st, iid, rg] => some (st, iid, rg)
  | [rid] =>
    if startsWithIDash rid.data then some ("EC2", rid, "us-east-1")
    else some ("RDS", rid, "us-east-1")
  | _ => none

/-- C8: the single-part reference `"i-0abc123"` parses without failure to
EC2 with the default region, and any single-part id without the `i-` prefix
parses to RDS with the default region. -/
theorem single_part_resource_inference :
    parseResourceRef "i-0abc123" = some ("EC2", "i-0abc123", "us-east-1") ∧
    ∀ s : String, splitParts s.data = [s.data] →
      startsWithIDash s.data = false →
      parseResourceRef s = some ("RDS", s, "us-east-1") := by
  constructor
  · decide
  · intro s hsplit hpre
    unfold parseResourceRef
    rw [hsplit]
    simp [hpre]

/-- Witness for C8's RDS branch at the single-part id `"mydb"`. -/
theorem single_part_resource_inference_witness :
    (splitParts "mydb".data = ["mydb".data] ∧
      startsWithIDash "mydb".data = false) ∧
    parseResourceRef "mydb" = some ("RDS", "mydb", "us-east-1") :=
  ⟨⟨by decide, by decide⟩,
    single_part_resource_inference.2 "mydb" (by decide) (by decide)⟩

/-- The tag scan shared by `list_ec2_instances` and `get_ec2_metrics`
(`aws_utils.py`): walk the tag list, overwriting the accumulator with the
value of every tag whose key is `Name`, starting from the given fallback. -/
def resolveTagName (fallback : String) (tags : List (String × String)) : String :=
  tags.foldl (fun acc t => if t.1 = "Name" then t.2 else acc) fallback

/-- The last `Name`-tag value of a tag list, if any. -/
def lastNameTag (tags : List (String × String)) : Option String :=
  tags.foldl (fun acc t => if t.1 = "Name" then some t.2 else acc) none

/-- Name resolution in the inventory path `list_ec2_instances`
(`aws_utils.py` lines 62-66): start from the literal `'Unnamed'`; `none`
models an instance without a `Tags` key. -/
def inventoryInstanceName (tags : Option (List (String × String))) : String :=
  match tags with
  | none => "Unnamed"
  | some ts => resolveTagName "Unnamed" ts

/-- Name resolution in the metric-fetch path `get_ec2_metrics`
(`aws_utils.py` lines 170-174): start from the instance id. -/
def metricsInstanceName (instanceId : String)
    (tags : Option (List (String × String))) : String :=
  match tags with
  | none => instanceId
  | some ts => resolveTagName instanceId ts

lemma foldl_lastNameTag_some (ts : List (String × String)) :
    ∀ v : String,
      ts.foldl (fun acc t => if t.1 = "Name" then some t.2 else acc) (some v)
        = some ((lastNameTag ts).getD v) := by
  induction ts with
  | nil => intro v; rfl
  | cons t ts ih =>
    intro v
    by_cases h : t.1 = "Name"
    · simp only [lastNameTag, List.foldl, h, if_pos]
      rw [ih t.2]
      simp
    · simp only [lastNameTag, List.foldl, h, if_neg, not_false_iff]
      exact ih v

lemma resolveTagName_eq_lastNameTag (ts : List (String × String))
    (fallback : String) :
    resolveTagName fallback ts = (lastNameTag ts).getD fallback := by
  induction ts generalizing fallback with
  | nil => rfl
  | cons t ts ih =>
    by_cases h : t.1 = "Name"
    · simp only [resolveTagName, lastNameTag, List.foldl, h, if_pos]
      rw [show (ts.foldl (fun acc x => if x.1 = "Name" then x.2 else acc) t.2)
            = resolveTagName t.2 ts from rfl,
          ih t.2, foldl_lastNameTag_some ts t.2]
      simp
    · simp only [resolveTagName, lastNameTag, List.foldl, h, if_neg,
        not_false_iff]
      exact ih fallback

/-- C9 counterexample: an inventoried instance with id `"i-0abc123"` and no
tags is named `"Unnamed"`, not its instance id, so the inventory fallback is
not the platform identifier. -/
theorem inventory_name_counterexample :
    inventoryInstanceName none = "Unnamed" ∧
    ("Unnamed" : String) ≠ "i-0abc123" := by
  exact ⟨rfl, by decide⟩

/-- C9 (amended): the inventory path names an instance by its last `Name`
tag when one is present and otherwise uses the literal `"Unnamed"`; it is
the metric-fetch path (`get_ec2_metrics`) that falls back to the instance
id. -/
theorem instance_name_resolution (instanceId : String)
    (tags : List (String × String)) :
    inventoryInstanceName none = "Unnamed" ∧
    metricsInstanceName instanceId none = instanceId ∧
    inventoryInstanceName (some tags) = (lastNameTag tags).getD "Unnamed" ∧
    metricsInstanceName instanceId (some tags)
      = (lastNameTag tags).getD instanceId := by
  refine ⟨rfl, rfl, ?_, ?_⟩
  · exact resolveTagName_eq_lastNameTag tags "Unnamed"
  · exact resolveTagName_eq_lastNameTag tags instanceId

/-- The RDS average display conversion of `create_utilization_report`
(`report_generator.py` lines 562-569 and 702-709):
`avg_val / (1024**3) if avg_val > 1000 else avg_val`. -/
def rdsAvgDisplayGb (avg : ℚ) : ℚ :=
  if 1000 < avg then avg / gbFactor else avg

/-- The two availability remarks of the RDS memory/disk sections. -/
inductive AvailRemark where
  | lowAvailability
  | normalAvailability
  deriving DecidableEq

/-- RDS memory remark: low availability below 1 GB of the displayed value. -/
def rdsMemoryRemark (avg : ℚ) : AvailRemark :=
  if rdsAvgDisplayGb avg < 1 then AvailRemark.lowAvailability
  else AvailRemark.normalAvailability

/-- RDS disk remark: low availability below 5 GB of the displayed value. -/
def rdsDiskRemark (avg : ℚ) : AvailRemark :=
  if rdsAvgDisplayGb avg < 5 then AvailRemark.lowAvailability
  else AvailRemark.normalAvailability

/-- C10: the displayed RDS average equals the normalized series average
exactly when that average is at most 1000; above 1000 it is divided by
`1024^3` a second time (changing the value), and the low/normal remark is
chosen from the displayed value with a 1 GB cutoff for memory and a 5 GB
cutoff for disk. -/
theorem rds_display_double_conversion (avg : ℚ) :
    (avg ≤ 1000 → rdsAvgDisplayGb avg = avg) ∧
    (1000 < avg →
      rdsAvgDisplayGb avg = avg / gbFactor ∧ rdsAvgDisplayGb avg ≠ avg) ∧
    (rdsMemoryRemark avg = AvailRemark.lowAvailability ↔ rdsAvgDisplayGb avg < 1) ∧
    (rdsDiskRemark avg = AvailRemark.lowAvailability ↔ rdsAvgDisplayGb avg < 5) := by
  refine ⟨?_, ?_, ?_, ?_⟩
  · intro h
    simp [rdsAvgDisplayGb, not_lt.mpr h]
  · intro h
    have hdiv : avg / gbFactor < avg := by
      apply div_lt_self (by linarith)
      norm_num [gbFactor]
    refine ⟨by simp [rdsAvgDisplayGb, h], ?_⟩
    simp only [rdsAvgDisplayGb, if_pos h]
    exact ne_of_lt hdiv
  · unfold rdsMemoryRemark
    split_ifs with h <;> simp [h]
  · unfold rdsDiskRemark
    split_ifs with h <;> simp [h]

/-- Witness for C10 at the averages 2000 (converted a second time) and 500
(displayed unchanged). -/
theorem rds_display_double_conversion_witness :
    ((2000 : ℚ) ≤ 1000 → False) ∧
    rdsAvgDisplayGb 2000 = 2000 / gbFactor ∧
    rdsAvgDisplayGb 2000 ≠ 2000 ∧
    (500 : ℚ) ≤ 1000 ∧
    rdsAvgDisplayGb 500 = 500 := by
  have h2000 := (rds_display_double_conversion 2000).2.1 (by norm_num)
  have h500 := (rds_display_double_conversion 500).1 (by norm_num)
  exact ⟨by norm_num, h2000.1, h2000.2, by norm_num, h500⟩

/-- The flowable kinds appended by `create_billing_report`
(`report_generator.py` lines 752-838): a title paragraph, spacers, the
report-information table, the summary paragraph and the footer paragraph.
The function appends nothing else — in particular no per-service table and
no total row. -/
inductive BillingElement where
  | titleParagraph (text : String)
  | spacer
  | infoTable (rows : List (String × String))
  | summaryParagraph (text : String)
  | footerParagraph
  deriving DecidableEq

/-- `create_billing_report` (`report_generator.py` lines 752-838): the exact
sequence of flowables appended to `elements`.  `generatedAt` stands for
`datetime.now().strftime(...)`; the `billing_data` argument is accepted by
the Python function but never read. -/
def createBillingReport (accountName cloudProvider : String) (month year : Nat)
    (generatedAt : String) (billingData : Option CostBreakdown) :
    List BillingElement :=
  [BillingElement.titleParagraph (cloudProvider.toUpper ++ " BILLING REPORT"),
   BillingElement.spacer,
   BillingElement.infoTable
     [("Client", accountName),
      ("Report Type", "Billing Report"),
      ("Billing Period", monthName month ++ " " ++ toString year),
      ("Report Generated", generatedAt),
      ("Currency", "USD")],
   BillingElement.spacer,
   BillingElement.summaryParagraph
     "This report provides cost breakdown for your selected services during the billing period.",
   BillingElement.spacer,
   BillingElement.footerParagraph]

/-- C1 (code bug): the assembled billing document is completely independent
of the billing data — the function appends exactly seven fixed flowables
(cover title, spacers, info table, summary text, footer) and never renders a
per-service table, a tax separator row or a total row. -/
theorem billing_report_ignores_billing_data (accountName cloudProvider : String)
    (month year : Nat) (generatedAt : String) (bd : Option CostBreakdown) :
    createBillingReport accountName cloudProvider month year generatedAt bd
      = createBillingReport accountName cloudProvider month year generatedAt none ∧
    (createBillingReport accountName cloudProvider month year generatedAt bd).length
      = 7 := by
  exact ⟨rfl, rfl⟩

end NxApp
